import Mathlib

/-!
Verification of the WebP-to-PNG converter (`src/main.go`) against its
natural-language specification.

Modelling conventions (shallow embedding):
* Go strings and file contents are modelled as `List Char` (`Str`).
* Go errors built with `fmt.Errorf("...: %w", err)` are modelled as a wrap
  chain (`GoErr`), so "the error carries message m" is membership of `m`
  in the chain's message list.
* The filesystem is an association list from paths to contents, together
  with directory-listing results and fault-injection sets that say at
  which paths `os.Create`, `(*os.File).Sync` and `os.MkdirAll` fail.
  `filepath.Join` is modelled as concatenation with a separator (the
  `Clean` normalisation of Go's `Join` is elided: paths are opaque keys).
* The codec libraries (`webp.Decode`, `jpeg.Decode`, `png.Encode`) are
  opaque parameters (`Codec`), as the spec treats them as external
  collaborators.  `png.Encode` writes through the file handle, so it is
  modelled as producing the bytes written so far plus an optional error.
-/

set_option maxRecDepth 16384

/-- Go strings / byte slices, modelled as lists of characters. -/
abbrev Str := List Char

/-- Shorthand for turning a Lean string literal into the model type. -/
def lit (s : String) : Str := s.toList

/-- Go errors as produced by `fmt.Errorf` with `%w`: either a leaf error
message or a prefix wrapped around an inner error. -/
inductive GoErr where
  | base (msg : Str)
  | wrap (pre : Str) (inner : GoErr)
deriving DecidableEq, Repr

/-- All message texts carried by an error chain (the wrap prefixes and the
leaf message). -/
def GoErr.msgs : GoErr → List Str
  | .base m => [m]
  | .wrap p e => p :: e.msgs

/-- The rendered text of an error, as Go's `Error()` produces for
`fmt.Errorf("pre: %w", inner)`. -/
def GoErr.render : GoErr → Str
  | .base m => m
  | .wrap p e => p ++ lit ": " ++ e.render

/-- A directory entry as returned by `os.ReadDir`. -/
structure DirEnt where
  name : Str
  isDir : Bool
deriving DecidableEq, Repr

/-- The filesystem model: file contents, directory listings, and the sets
of paths at which `os.Create`, `Sync` and `os.MkdirAll` fail. -/
structure FS where
  files : List (Str × Str)
  dirs : List (Str × List DirEnt)
  createFails : List Str
  syncFails : List Str
  mkdirFails : List Str
deriving DecidableEq, Repr

/-- `os.ReadFile` / content lookup: the contents at a path, if the file
exists. -/
def FS.read (fs : FS) (p : Str) : Option Str :=
  fs.files.lookup p

/-- Writing contents at a path (create-or-truncate followed by writes). -/
def FS.write (fs : FS) (p : Str) (d : Str) : FS :=
  { fs with files := (p, d) :: fs.files.filter (fun q => q.1 ≠ p) }

/-- `os.Remove`: erase the file at a path. -/
def FS.remove (fs : FS) (p : Str) : FS :=
  { fs with files := fs.files.filter (fun q => q.1 ≠ p) }

/-- `os.ReadDir`: the listing of a directory, if it can be read. -/
def FS.readDir (fs : FS) (p : Str) : Option (List DirEnt) :=
  fs.dirs.lookup p

/-- The opaque codec libraries.  `pngEncode` returns the bytes it wrote
through the destination handle together with an optional error (on error
a partial prefix may already be on disk). -/
structure Codec (Img : Type) where
  webpDecode : Str → Except GoErr Img
  jpegDecode : Str → Except GoErr Img
  pngEncode : Img → Str × Option GoErr

/-- `strings.ToLower` (ASCII case folding on the model's characters). -/
def goToLower (s : Str) : Str := s.map Char.toLower

/-- `strings.HasSuffix`. -/
def goHasSuffix (s suffix : Str) : Bool := suffix.isSuffixOf s

/-- `strings.TrimSuffix`. -/
def goTrimSuffix (s suffix : Str) : Str :=
  if goHasSuffix s suffix then s.take (s.length - suffix.length) else s

/-- Scanning loop of `filepath.Ext`: walks the reversed path, stops at a
separator, and returns the suffix from the last dot (accumulated). -/
def extLoop : Str → Str → Str
  | [], _ => []
  | c :: rest, acc =>
    if c = '/' then []
    else if c = '.' then c :: acc
    else extLoop rest (c :: acc)

/-- `filepath.Ext`: the suffix beginning at the final dot in the final
path element, empty when there is none. -/
def filepathExt (p : Str) : Str := extLoop p.reverse []

/-- `filepath.Join` of two components (normalisation elided). -/
def filepathJoin (a b : Str) : Str := a ++ '/' :: b

/-- Wrap prefix of the read failure (main.go line 22). -/
def readFailPrefix : Str := lit "не удалось прочитать файл"

/-- Wrap prefix of the decode failure (main.go line 35). -/
def decodeFailPrefix : Str :=
  lit "не удалось декодировать изображение (пробовались форматы WebP и JPEG)"

/-- Wrap prefix of the create failure (main.go line 42). -/
def createFailPrefix : Str := lit "не удалось создать выходной файл"

/-- Wrap prefix of the encode failure (main.go line 51). -/
def encodeFailPrefix : Str := lit "не удалось закодировать PNG"

/-- Wrap prefix of the sync failure (main.go line 57). -/
def syncFailPrefix : Str := lit "не удалось синхронизировать файл"

/-- Representative operating-system error wrapped by a failing read. -/
def osReadErr : GoErr := .base (lit "no such file or directory")

/-- Representative operating-system error wrapped by a failing create. -/
def osCreateErr : GoErr := .base (lit "permission denied")

/-- Representative operating-system error wrapped by a failing sync. -/
def osSyncErr : GoErr := .base (lit "input/output error")

/-- The decode fallback chain of `convertWebPToPNG` (main.go lines
30-37): try WebP first; on any error retry the same buffer as JPEG.  The
WebP error is overwritten by the JPEG attempt, exactly as the Go code's
reuse of `err` does. -/
def decodeFallback {Img : Type} (c : Codec Img) (data : Str) : Except GoErr Img :=
  match c.webpDecode data with
  | .ok img => .ok img
  | .error _ => c.jpegDecode data

/-- `convertWebPToPNG` (main.go lines 17-61): read the whole input,
decode with the fallback chain, create the destination only after a
successful decode, encode PNG (removing the destination on encode
failure), and sync. -/
def convertWebPToPNG {Img : Type} (c : Codec Img) (fs : FS)
    (inputPath outputPath : Str) : Except GoErr Unit × FS :=
  match fs.read inputPath with
  | none => (.error (.wrap readFailPrefix osReadErr), fs)
  | some inputData =>
    match decodeFallback c inputData with
    | .error e => (.error (.wrap decodeFailPrefix e), fs)
    | .ok img =>
      if outputPath ∈ fs.createFails then
        (.error (.wrap createFailPrefix osCreateErr), fs)
      else
        let fs1 := fs.write outputPath []
        let enc := c.pngEncode img
        let fs2 := fs1.write outputPath enc.1
        match enc.2 with
        | some e => (.error (.wrap encodeFailPrefix e), fs2.remove outputPath)
        | none =>
          if outputPath ∈ fs2.syncFails then
            (.error (.wrap syncFailPrefix osSyncErr), fs2)
          else (.ok (), fs2)

/-- Wrap prefix of the batch-fatal listing failure (main.go line 67). -/
def listFailPrefix : Str := lit "не удалось прочитать директорию"

/-- Wrap prefix of the batch-fatal mkdir failure (main.go line 91). -/
def mkdirFailPrefix : Str := lit "не удалось создать выходную директорию"

/-- The eligibility filter of `convertDirectory` (main.go lines 70-78):
non-directory entries whose lower-cased name has suffix `.webp`. -/
def webpFilesOf (entries : List DirEnt) : List Str :=
  (entries.filter (fun e => !e.isDir && goHasSuffix (goToLower e.name) (lit ".webp"))).map
    DirEnt.name

/-- The destination name computed per file (main.go line 105): the base
name with its `filepath.Ext` extension trimmed and `.png` appended. -/
def pngNameOf (webpFile : Str) : Str :=
  goTrimSuffix webpFile (filepathExt webpFile) ++ lit ".png"

/-- The destination path per file (main.go lines 107-112): in `outputDir`
when it is non-empty, else in `inputDir`. -/
def outputPathOf (inputDir outputDir webpFile : Str) : Str :=
  if outputDir ≠ [] then filepathJoin outputDir (pngNameOf webpFile)
  else filepathJoin inputDir (pngNameOf webpFile)

/-- The recorded message for a failed conversion (main.go line 116). -/
def convFailMsg (webpFile : Str) (e : GoErr) : Str :=
  lit "Ошибка при конвертации " ++ webpFile ++ lit ": " ++ e.render

/-- The recorded message when the destination is missing after a reported
success (main.go line 125). -/
def missingMsg (outputPath webpFile : Str) : Str :=
  lit "Выходной файл " ++ outputPath ++ lit " не найден после конвертации " ++ webpFile

/-- The recorded message when the destination is empty after a reported
success (main.go line 131). -/
def emptyMsg (outputPath webpFile : Str) : Str :=
  lit "Выходной файл " ++ outputPath ++ lit " пустой после конвертации " ++ webpFile

/-- Loop state of the batch loop: filesystem, accumulated failures
(fileName, errorMsg) in discovery order, and the success counter. -/
structure BatchAcc where
  fs : FS
  failures : List (Str × Str)
  successCount : Nat
deriving Repr

/-- One iteration of the batch loop (main.go lines 103-140): convert,
then re-verify that the destination exists and is non-empty; on any
failure append a failure outcome and continue, else count a success. -/
def processOne {Img : Type} (c : Codec Img) (inputDir outputDir : Str)
    (acc : BatchAcc) (webpFile : Str) : BatchAcc :=
  let inputPath := filepathJoin inputDir webpFile
  let outputPath := outputPathOf inputDir outputDir webpFile
  match convertWebPToPNG c acc.fs inputPath outputPath with
  | (.error e, fs1) =>
    { fs := fs1, failures := acc.failures ++ [(webpFile, convFailMsg webpFile e)],
      successCount := acc.successCount }
  | (.ok _, fs1) =>
    match fs1.read outputPath with
    | none =>
      { fs := fs1, failures := acc.failures ++ [(webpFile, missingMsg outputPath webpFile)],
        successCount := acc.successCount }
    | some data =>
      if data.length = 0 then
        { fs := fs1.remove outputPath,
          failures := acc.failures ++ [(webpFile, emptyMsg outputPath webpFile)],
          successCount := acc.successCount }
      else
        { fs := fs1, failures := acc.failures, successCount := acc.successCount + 1 }

/-- The batch loop over the eligible files, in directory-listing order. -/
def processFiles {Img : Type} (c : Codec Img) (inputDir outputDir : Str)
    (fs : FS) (files : List Str) : BatchAcc :=
  files.foldl (processOne c inputDir outputDir) ⟨fs, [], 0⟩

/-- One numbered block of the error report (main.go lines 161-162),
`i` being the 0-based loop index. -/
def reportEntry (i : Nat) (fileName errorMsg : Str) : Str :=
  lit (toString (i + 1)) ++ lit ". Файл: " ++ fileName ++ lit "\n   Ошибка: "
    ++ errorMsg ++ lit "\n\n"

/-- The header and count lines of the error report (main.go lines
156-158). -/
def reportHeader (count : Nat) : Str :=
  lit "Отчет об ошибках конвертации\n================================\n\nВсего ошибок: "
    ++ lit (toString count) ++ lit "\n\n"

/-- The full text of `conversion_errors.txt` for a failure list. -/
def reportText (failures : List (Str × Str)) : Str :=
  reportHeader failures.length ++
    (failures.enum.map (fun p => reportEntry p.1 p.2.1 p.2.2)).flatten

/-- Where the report is written (main.go lines 144-148): `outputDir`, or
`inputDir` when `outputDir` is empty. -/
def reportPathOf (inputDir outputDir : Str) : Str :=
  filepathJoin (if outputDir = [] then inputDir else outputDir)
    (lit "conversion_errors.txt")

/-- The report step (main.go lines 142-167): when there are failures,
create `conversion_errors.txt` and write the report; failure to create
it is only a warning and changes nothing. -/
def writeReport (fs : FS) (inputDir outputDir : Str)
    (failures : List (Str × Str)) : FS :=
  if failures = [] then fs
  else
    let reportPath := reportPathOf inputDir outputDir
    if reportPath ∈ fs.createFails then fs
    else fs.write reportPath (reportText failures)

/-- The observable outcome of a batch run (the printed summary and the
accumulated outcomes). -/
structure BatchResult where
  failures : List (Str × Str)
  successCount : Nat
  total : Nat
deriving DecidableEq, Repr

/-- `convertDirectory` (main.go lines 63-171): list the directory (fatal
on failure), filter eligible files (quiet success when none), create the
output directory when needed (fatal on failure), run the per-file loop,
write the error report, and return success. -/
def convertDirectory {Img : Type} (c : Codec Img) (fs : FS)
    (inputDir outputDir : Str) : Except GoErr BatchResult × FS :=
  match fs.readDir inputDir with
  | none => (.error (.wrap listFailPrefix osReadErr), fs)
  | some entries =>
    let webpFiles := webpFilesOf entries
    if webpFiles = [] then (.ok ⟨[], 0, 0⟩, fs)
    else
      if outputDir ≠ [] ∧ outputDir ≠ inputDir ∧ outputDir ∈ fs.mkdirFails then
        (.error (.wrap mkdirFailPrefix osCreateErr), fs)
      else
        let acc := processFiles c inputDir outputDir fs webpFiles
        (.ok ⟨acc.failures, acc.successCount, webpFiles.length⟩,
          writeReport acc.fs inputDir outputDir acc.failures)

/-- The single-file CLI path's derivation of the output file when it is
omitted (main.go line 219). -/
def deriveSingleOutput (input : Str) : Str :=
  goTrimSuffix input (filepathExt input) ++ lit ".png"

/-! ### Helper lemmas about the filesystem model -/

theorem lookup_filter_ne (l : List (Str × Str)) (p : Str) :
    (l.filter (fun e => e.1 ≠ p)).lookup p = none := by
  rw [List.lookup_eq_none_iff]
  intro e he
  have h2 : e.1 ≠ p := by simpa using (List.mem_filter.mp he).2
  exact bne_iff_ne.mpr (fun hpq => h2 hpq.symm)

theorem lookup_filter_other (l : List (Str × Str)) {p q : Str} (h : q ≠ p) :
    (l.filter (fun e => e.1 ≠ p)).lookup q = l.lookup q := by
  induction l with
  | nil => rfl
  | cons e t ih =>
    rcases e with ⟨k, v⟩
    rw [List.filter_cons]
    by_cases he : k = p
    · rw [if_neg (by simp [he])]
      rw [List.lookup_cons]
      have hqk : (q == k) = false := beq_eq_false_iff_ne.mpr (by rw [he]; exact h)
      rw [hqk]
      exact ih
    · rw [if_pos (by simp [he])]
      rw [List.lookup_cons, List.lookup_cons]
      cases hqk : (q == k) with
      | false => exact ih
      | true => rfl

@[simp] theorem FS.read_write_self (fs : FS) (p d : Str) :
    (fs.write p d).read p = some d := by
  simp [FS.write, FS.read]

theorem FS.read_write_other (fs : FS) {p q : Str} (h : q ≠ p) (d : Str) :
    (fs.write p d).read q = fs.read q := by
  show List.lookup q ((p, d) :: fs.files.filter (fun e => e.1 ≠ p)) = fs.read q
  rw [List.lookup_cons, beq_eq_false_iff_ne.mpr h]
  exact lookup_filter_other fs.files h

@[simp] theorem FS.read_remove_self (fs : FS) (p : Str) :
    (fs.remove p).read p = none :=
  lookup_filter_ne fs.files p

theorem FS.write_write_self (fs : FS) (p a b : Str) :
    (fs.write p a).write p b = fs.write p b := by
  simp only [FS.write, List.filter_cons]
  simp [List.filter_filter]

@[simp] theorem FS.write_createFails (fs : FS) (p d : Str) :
    (fs.write p d).createFails = fs.createFails := rfl

@[simp] theorem FS.write_syncFails (fs : FS) (p d : Str) :
    (fs.write p d).syncFails = fs.syncFails := rfl

@[simp] theorem FS.write_mkdirFails (fs : FS) (p d : Str) :
    (fs.write p d).mkdirFails = fs.mkdirFails := rfl

@[simp] theorem FS.write_dirs (fs : FS) (p d : Str) :
    (fs.write p d).dirs = fs.dirs := rfl

/-! ### Concrete fixtures used to witness the theorems -/

/-- A concrete codec over `Img := Nat`.  Image 1 is a well-formed WebP,
image 2 a well-formed JPEG, image 7 decodes but encodes to zero bytes,
image 9 fails to encode after writing a partial prefix. -/
def demoCodec : Codec Nat where
  webpDecode := fun d =>
    if d = lit "RIFFWEBP" then .ok 1
    else if d = lit "EMPTY" then .ok 7
    else if d = lit "BOOM" then .ok 9
    else .error (.base (lit "webp: invalid format"))
  jpegDecode := fun d =>
    if d = lit "JFIF" then .ok 2 else .error (.base (lit "invalid JPEG format"))
  pngEncode := fun img =>
    if img = 9 then (lit "PN", some (.base (lit "png: boom")))
    else if img = 7 then ([], none)
    else (lit "PNGDATA", none)

/-- A concrete filesystem: a directory `d` with a valid WebP file, a
JPEG file under a `.webp` name, a corrupt file, a file that decodes but
encodes to zero bytes, and a file whose encode fails midway. -/
def demoFS : FS where
  files := [(lit "d/a.webp", lit "RIFFWEBP"), (lit "d/b.webp", lit "JFIF"),
    (lit "d/c.webp", lit "junk"), (lit "d/e.webp", lit "EMPTY"),
    (lit "d/boom.webp", lit "BOOM")]
  dirs := [(lit "d", [⟨lit "a.webp", false⟩, ⟨lit "b.webp", false⟩,
    ⟨lit "sub", true⟩, ⟨lit "c.webp", false⟩, ⟨lit "e.webp", false⟩,
    ⟨lit "boom.webp", false⟩, ⟨lit "x.png", false⟩])]
  createFails := []
  syncFails := []
  mkdirFails := []

/-! ### The claims -/

/-- C1: for every input file, `convert` first attempts a WebP decode of
the whole buffered contents, falls back to a JPEG decode of the same
buffer on any WebP error, and proceeds to encoding exactly when one of
the two decodes succeeds; in particular JPEG bytes under a `.webp`-style
name still convert successfully. -/
theorem spec_C1 {Img : Type} (c : Codec Img) (fs : FS) (i o data : Str)
    (hread : fs.read i = some data) :
    ((∃ img, decodeFallback c data = Except.ok img) ↔
      ((∃ img, c.webpDecode data = Except.ok img) ∨
        (∃ img, c.jpegDecode data = Except.ok img)))
    ∧ (∀ e, decodeFallback c data = Except.error e →
        convertWebPToPNG c fs i o = (Except.error (GoErr.wrap decodeFailPrefix e), fs))
    ∧ (∀ ew img, c.webpDecode data = Except.error ew →
        c.jpegDecode data = Except.ok img →
        o ∉ fs.createFails → (c.pngEncode img).2 = none → o ∉ fs.syncFails →
        (convertWebPToPNG c fs i o).1 = Except.ok ()) := by
  refine ⟨?_, ?_, ?_⟩
  · cases hw : c.webpDecode data with
    | ok img => simp [decodeFallback, hw]
    | error ew =>
      cases hj : c.jpegDecode data with
      | ok img => simp [decodeFallback, hw, hj]
      | error ej => simp [decodeFallback, hw, hj]
  · intro e he
    simp [convertWebPToPNG, hread, he]
  · intro ew img hw hj hcr henc hsy
    have hdec : decodeFallback c data = Except.ok img := by
      simp [decodeFallback, hw, hj]
    simp [convertWebPToPNG, hread, hdec, hcr, henc, hsy]

/-- Witness for C1 at a concrete input: file `d/b.webp` holds JPEG bytes,
the WebP decode fails, and the conversion still succeeds. -/
theorem spec_C1_witness :
    (convertWebPToPNG demoCodec demoFS (lit "d/b.webp") (lit "d/b.png")).1
      = Except.ok () :=
  (spec_C1 demoCodec demoFS (lit "d/b.webp") (lit "d/b.png") (lit "JFIF") rfl).2.2
    (GoErr.base (lit "webp: invalid format")) 2 rfl rfl (by decide) rfl (by decide)

/-- The decode error `convert` produces for the corrupt fixture file:
only the JPEG attempt's error is wrapped. -/
def c2Err : GoErr := .wrap decodeFailPrefix (.base (lit "invalid JPEG format"))

/-- C2 counterexample: on the corrupt file `d/c.webp` both decodes fail,
yet the returned decode error carries only the JPEG attempt's message
(`invalid JPEG format`): the WebP attempt's message (`webp: invalid
format`) appears neither in the error chain nor anywhere in the rendered
error text, because main.go line 33 overwrites `err` before line 35
wraps it. -/
theorem spec_C2_counterexample :
    demoCodec.webpDecode (lit "junk")
        = Except.error (GoErr.base (lit "webp: invalid format"))
    ∧ demoCodec.jpegDecode (lit "junk")
        = Except.error (GoErr.base (lit "invalid JPEG format"))
    ∧ (convertWebPToPNG demoCodec demoFS (lit "d/c.webp") (lit "d/c.png")).1
        = Except.error c2Err
    ∧ lit "invalid JPEG format" ∈ c2Err.msgs
    ∧ lit "webp: invalid format" ∉ c2Err.msgs
    ∧ ¬ (lit "webp: invalid format" <:+: c2Err.render) :=
  ⟨rfl, rfl, rfl, by decide, by decide, by decide⟩

/-- C2 (amended): when both decodes fail, `convert` fails with a decode
error that wraps the JPEG attempt's error — so the JPEG attempt's
messages are all carried — while the WebP attempt's error is discarded.
-/
theorem spec_C2 {Img : Type} (c : Codec Img) (fs : FS) (i o data : Str)
    (ew ej : GoErr) (hread : fs.read i = some data)
    (hw : c.webpDecode data = Except.error ew)
    (hj : c.jpegDecode data = Except.error ej) :
    convertWebPToPNG c fs i o
      = (Except.error (GoErr.wrap decodeFailPrefix ej), fs)
    ∧ ej.msgs ⊆ (GoErr.wrap decodeFailPrefix ej).msgs := by
  have hdec : decodeFallback c data = Except.error ej := by
    simp [decodeFallback, hw, hj]
  refine ⟨by simp [convertWebPToPNG, hread, hdec], ?_⟩
  intro m hm
  exact List.mem_cons_of_mem _ hm

/-- Witness for the amended C2 at the corrupt fixture file. -/
theorem spec_C2_witness :
    (convertWebPToPNG demoCodec demoFS (lit "d/c.webp") (lit "d/c.png")
        = (Except.error (GoErr.wrap decodeFailPrefix
            (GoErr.base (lit "invalid JPEG format"))), demoFS))
    ∧ (GoErr.base (lit "invalid JPEG format")).msgs
        ⊆ (GoErr.wrap decodeFailPrefix
            (GoErr.base (lit "invalid JPEG format"))).msgs :=
  spec_C2 demoCodec demoFS (lit "d/c.webp") (lit "d/c.png") (lit "junk")
    (GoErr.base (lit "webp: invalid format"))
    (GoErr.base (lit "invalid JPEG format")) rfl rfl rfl

/-- C3: `convert` leaves no destination file behind when it fails before
a successful encode.  A read failure or a decode failure returns before
the destination is created, leaving the filesystem untouched; an encode
failure deletes the partially written destination and returns an encode
error. -/
theorem spec_C3 {Img : Type} (c : Codec Img) (fs : FS) (i o : Str) :
    (fs.read i = none →
      convertWebPToPNG c fs i o
        = (Except.error (GoErr.wrap readFailPrefix osReadErr), fs))
    ∧ (∀ data e, fs.read i = some data →
      decodeFallback c data = Except.error e →
      convertWebPToPNG c fs i o
        = (Except.error (GoErr.wrap decodeFailPrefix e), fs))
    ∧ (∀ data img bytes e, fs.read i = some data →
      decodeFallback c data = Except.ok img →
      o ∉ fs.createFails → c.pngEncode img = (bytes, some e) →
      (convertWebPToPNG c fs i o).1 = Except.error (GoErr.wrap encodeFailPrefix e)
      ∧ ((convertWebPToPNG c fs i o).2).read o = none) := by
  refine ⟨?_, ?_, ?_⟩
  · intro hread
    simp [convertWebPToPNG, hread]
  · intro data e hread hdec
    simp [convertWebPToPNG, hread, hdec]
  · intro data img bytes e hread hdec hcr henc
    refine ⟨by simp [convertWebPToPNG, hread, hdec, hcr, henc], ?_⟩
    simp [convertWebPToPNG, hread, hdec, hcr, henc]

/-- Witness for C3 at the fixture file `d/boom.webp`, whose PNG encode
fails after a partial write: the error is an encode error and the
destination is gone. -/
theorem spec_C3_witness :
    (convertWebPToPNG demoCodec demoFS (lit "d/boom.webp") (lit "d/boom.png")).1
      = Except.error (GoErr.wrap encodeFailPrefix (GoErr.base (lit "png: boom")))
    ∧ ((convertWebPToPNG demoCodec demoFS (lit "d/boom.webp") (lit "d/boom.png")).2).read
        (lit "d/boom.png") = none :=
  (spec_C3 demoCodec demoFS (lit "d/boom.webp") (lit "d/boom.png")).2.2
    (lit "BOOM") 9 (lit "PN") (GoErr.base (lit "png: boom"))
    rfl rfl (by decide) rfl

/-- C4: after a conversion that reports success, the batch step
independently re-verifies that the destination exists and is non-empty.
The success counter grows exactly when the conversion succeeded and the
destination exists with non-zero size; a missing destination is
reclassified as a failure; an empty destination is reclassified as a
failure and the stray file deleted, and in each case processing goes on
(the step returns an accumulator for the next file instead of aborting).
-/
theorem spec_C4 {Img : Type} (c : Codec Img) (inputDir outputDir : Str)
    (acc : BatchAcc) (f : Str) :
    ((processOne c inputDir outputDir acc f).successCount = acc.successCount + 1 ↔
      ((convertWebPToPNG c acc.fs (filepathJoin inputDir f)
          (outputPathOf inputDir outputDir f)).1 = Except.ok ()
        ∧ ∃ d, ((convertWebPToPNG c acc.fs (filepathJoin inputDir f)
            (outputPathOf inputDir outputDir f)).2).read
              (outputPathOf inputDir outputDir f) = some d ∧ d.length ≠ 0))
    ∧ (∀ fs1, convertWebPToPNG c acc.fs (filepathJoin inputDir f)
          (outputPathOf inputDir outputDir f) = (Except.ok (), fs1) →
        fs1.read (outputPathOf inputDir outputDir f) = none →
        processOne c inputDir outputDir acc f
          = ⟨fs1, acc.failures
              ++ [(f, missingMsg (outputPathOf inputDir outputDir f) f)],
              acc.successCount⟩)
    ∧ (∀ fs1 d, convertWebPToPNG c acc.fs (filepathJoin inputDir f)
          (outputPathOf inputDir outputDir f) = (Except.ok (), fs1) →
        fs1.read (outputPathOf inputDir outputDir f) = some d → d.length = 0 →
        processOne c inputDir outputDir acc f
          = ⟨fs1.remove (outputPathOf inputDir outputDir f), acc.failures
              ++ [(f, emptyMsg (outputPathOf inputDir outputDir f) f)],
              acc.successCount⟩
        ∧ (fs1.remove (outputPathOf inputDir outputDir f)).read
            (outputPathOf inputDir outputDir f) = none) := by
  rcases hr : convertWebPToPNG c acc.fs (filepathJoin inputDir f)
    (outputPathOf inputDir outputDir f) with ⟨res, fs1⟩
  cases res with
  | error e =>
    refine ⟨by simp [processOne, hr], ?_, ?_⟩
    · intro fs2 hconv
      simp only [Prod.mk.injEq] at hconv
      exact absurd hconv.1 (by simp)
    · intro fs2 d hconv
      simp only [Prod.mk.injEq] at hconv
      exact absurd hconv.1 (by simp)
  | ok u =>
    cases u
    cases hread : fs1.read (outputPathOf inputDir outputDir f) with
    | none =>
      refine ⟨by simp [processOne, hr, hread], ?_, ?_⟩
      · intro fs2 hconv hmiss
        simp only [Prod.mk.injEq] at hconv
        obtain ⟨-, rfl⟩ := hconv
        simp [processOne, hr, hread]
      · intro fs2 d hconv hsome
        simp only [Prod.mk.injEq] at hconv
        obtain ⟨-, rfl⟩ := hconv
        rw [hread] at hsome
        cases hsome
    | some d =>
      by_cases hd : d.length = 0
      · refine ⟨by
          have hd0 : d = [] := List.length_eq_zero.mp hd
          simp [processOne, hr, hread, hd, hd0], ?_, ?_⟩
        · intro fs2 hconv hmiss
          simp only [Prod.mk.injEq] at hconv
          obtain ⟨-, rfl⟩ := hconv
          rw [hread] at hmiss
          cases hmiss
        · intro fs2 d2 hconv hsome hlen
          simp only [Prod.mk.injEq] at hconv
          obtain ⟨-, rfl⟩ := hconv
          rw [hread] at hsome
          cases hsome
          exact ⟨by simp [processOne, hr, hread, hd], by simp⟩
      · refine ⟨by
          have hd0 : d ≠ [] := fun h => hd (by simp [h])
          simp [processOne, hr, hread, hd, hd0], ?_, ?_⟩
        · intro fs2 hconv hmiss
          simp only [Prod.mk.injEq] at hconv
          obtain ⟨-, rfl⟩ := hconv
          rw [hread] at hmiss
          cases hmiss
        · intro fs2 d2 hconv hsome hlen
          simp only [Prod.mk.injEq] at hconv
          obtain ⟨-, rfl⟩ := hconv
          rw [hread] at hsome
          cases hsome
          exact absurd hlen hd

/-- Witness for C4: the fixture file `d/e.webp` decodes but encodes to
zero bytes; the step reclassifies it as a failure and deletes the empty
destination. -/
theorem spec_C4_witness :
    processOne demoCodec (lit "d") [] ⟨demoFS, [], 0⟩ (lit "e.webp")
      = ⟨((convertWebPToPNG demoCodec demoFS (lit "d/e.webp")
            (lit "d/e.png")).2).remove (lit "d/e.png"),
          [(lit "e.webp", emptyMsg (lit "d/e.png") (lit "e.webp"))], 0⟩
    ∧ (((convertWebPToPNG demoCodec demoFS (lit "d/e.webp")
          (lit "d/e.png")).2).remove (lit "d/e.png")).read (lit "d/e.png")
        = none :=
  (spec_C4 demoCodec (lit "d") [] ⟨demoFS, [], 0⟩ (lit "e.webp")).2.2
    (convertWebPToPNG demoCodec demoFS (lit "d/e.webp") (lit "d/e.png")).2
    [] rfl rfl rfl

/-- C5: `convertDirectory` fails exactly when the input directory cannot
be listed or when the (needed) output directory cannot be created, and
in either case it aborts with the filesystem untouched, before any
per-file work.  A per-file conversion failure is recorded as an outcome
carrying the file name and a message that ends with the error's rendered
text, the loop state moves on unchanged otherwise, and the loop
processes every file in order (appending one more file extends the fold
by one step). -/
theorem spec_C5 {Img : Type} (c : Codec Img) (fs : FS) (i o : Str) :
    ((convertDirectory c fs i o).1.isOk = false ↔
      (fs.readDir i = none ∨
        ∃ entries, fs.readDir i = some entries ∧ webpFilesOf entries ≠ [] ∧
          o ≠ [] ∧ o ≠ i ∧ o ∈ fs.mkdirFails))
    ∧ ((convertDirectory c fs i o).1.isOk = false →
        (convertDirectory c fs i o).2 = fs)
    ∧ (∀ acc f e fs1,
        convertWebPToPNG c acc.fs (filepathJoin i f) (outputPathOf i o f)
          = (Except.error e, fs1) →
        processOne c i o acc f
          = ⟨fs1, acc.failures ++ [(f, convFailMsg f e)], acc.successCount⟩
        ∧ e.render <:+ convFailMsg f e)
    ∧ (∀ files g, processFiles c i o fs (files ++ [g])
        = processOne c i o (processFiles c i o fs files) g) := by
  refine ⟨?_, ?_, ?_, ?_⟩
  · cases hrd : fs.readDir i with
    | none => simp [convertDirectory, hrd, Except.isOk, Except.toBool]
    | some entries =>
      by_cases hw : webpFilesOf entries = []
      · simp [convertDirectory, hrd, hw, Except.isOk, Except.toBool]
      · by_cases hm : o ≠ [] ∧ o ≠ i ∧ o ∈ fs.mkdirFails
        · simp [convertDirectory, hrd, hw, hm, Except.isOk, Except.toBool]
        · simp only [convertDirectory, hrd, if_neg hw, if_neg hm]
          simp [hw, hm, Except.isOk, Except.toBool]
  · cases hrd : fs.readDir i with
    | none => simp [convertDirectory, hrd, Except.isOk, Except.toBool]
    | some entries =>
      by_cases hw : webpFilesOf entries = []
      · simp [convertDirectory, hrd, hw, Except.isOk, Except.toBool]
      · by_cases hm : o ≠ [] ∧ o ≠ i ∧ o ∈ fs.mkdirFails
        · simp [convertDirectory, hrd, hw, hm, Except.isOk, Except.toBool]
        · simp [convertDirectory, hrd, hw, hm, Except.isOk, Except.toBool]
  · intro acc f e fs1 hconv
    refine ⟨by simp [processOne, hconv], ?_⟩
    exact ⟨lit "Ошибка при конвертации " ++ f ++ lit ": ",
      by simp [convFailMsg]⟩
  · intro files g
    simp [processFiles, List.foldl_append]

/-- Witness for C5: the corrupt fixture file `d/c.webp` is recorded as a
failure outcome with its file name and the decode error's text, and the
loop state is otherwise unchanged. -/
theorem spec_C5_witness :
    (processOne demoCodec (lit "d") [] ⟨demoFS, [], 0⟩ (lit "c.webp")
      = ⟨demoFS, [(lit "c.webp", convFailMsg (lit "c.webp") c2Err)], 0⟩)
    ∧ c2Err.render <:+ convFailMsg (lit "c.webp") c2Err :=
  (spec_C5 demoCodec demoFS (lit "d") []).2.2.1 ⟨demoFS, [], 0⟩ (lit "c.webp")
    c2Err demoFS rfl

/-- Each iteration of the batch loop adds exactly one to either the
success counter or the failure list. -/
theorem processOne_count {Img : Type} (c : Codec Img) (i o : Str)
    (acc : BatchAcc) (f : Str) :
    (processOne c i o acc f).successCount
      + (processOne c i o acc f).failures.length
      = acc.successCount + acc.failures.length + 1 := by
  rcases hr : convertWebPToPNG c acc.fs (filepathJoin i f) (outputPathOf i o f)
    with ⟨res, fs1⟩
  cases res with
  | error e => simp [processOne, hr]; omega
  | ok u =>
    cases u
    cases hread : fs1.read (outputPathOf i o f) with
    | none => simp [processOne, hr, hread]; omega
    | some d =>
      by_cases hd : d.length = 0
      · simp [processOne, hr, hread, hd]; omega
      · simp [processOne, hr, hread, hd]; omega

/-- Over any file list the final success count plus failure count equals
the number of files processed. -/
theorem processFiles_count {Img : Type} (c : Codec Img) (i o : Str)
    (fs : FS) (files : List Str) :
    (processFiles c i o fs files).successCount
      + (processFiles c i o fs files).failures.length = files.length := by
  suffices h : ∀ (l : List Str) (acc : BatchAcc),
      (l.foldl (processOne c i o) acc).successCount
        + (l.foldl (processOne c i o) acc).failures.length
        = acc.successCount + acc.failures.length + l.length by
    have := h files ⟨fs, [], 0⟩
    simpa [processFiles] using this
  intro l
  induction l with
  | nil => intro acc; simp
  | cons f t ih =>
    intro acc
    rw [List.foldl_cons, ih (processOne c i o acc f),
      processOne_count c i o acc f]
    simp [List.length_cons]
    omega

/-- C6: a batch run over N eligible files with K failures reports the
failure list and a success count of N − K; when K > 0 the report file
`conversion_errors.txt` is written into `outputDir` (or `inputDir` when
empty) with the header, the count K, and the K numbered one-based
entries in failure order; failure to create the report is non-fatal and
writes nothing; when K = 0 nothing is written after the loop. -/
theorem spec_C6 {Img : Type} (c : Codec Img) (fs : FS) (i o : Str)
    (entries : List DirEnt)
    (hrd : fs.readDir i = some entries)
    (hne : webpFilesOf entries ≠ [])
    (hmk : ¬(o ≠ [] ∧ o ≠ i ∧ o ∈ fs.mkdirFails)) :
    ((convertDirectory c fs i o).1 = Except.ok
        ⟨(processFiles c i o fs (webpFilesOf entries)).failures,
          (processFiles c i o fs (webpFilesOf entries)).successCount,
          (webpFilesOf entries).length⟩)
    ∧ ((processFiles c i o fs (webpFilesOf entries)).successCount
        = (webpFilesOf entries).length
          - (processFiles c i o fs (webpFilesOf entries)).failures.length)
    ∧ ((processFiles c i o fs (webpFilesOf entries)).failures ≠ [] →
        reportPathOf i o ∉
          (processFiles c i o fs (webpFilesOf entries)).fs.createFails →
        ((convertDirectory c fs i o).2).read (reportPathOf i o)
          = some (reportText
              (processFiles c i o fs (webpFilesOf entries)).failures))
    ∧ ((processFiles c i o fs (webpFilesOf entries)).failures ≠ [] →
        reportPathOf i o ∈
          (processFiles c i o fs (webpFilesOf entries)).fs.createFails →
        (convertDirectory c fs i o).2
          = (processFiles c i o fs (webpFilesOf entries)).fs)
    ∧ ((processFiles c i o fs (webpFilesOf entries)).failures = [] →
        (convertDirectory c fs i o).2
          = (processFiles c i o fs (webpFilesOf entries)).fs)
    ∧ (∀ failures : List (Str × Str),
        ((failures.enum.map (fun p => reportEntry p.1 p.2.1 p.2.2)).length
          = failures.length)
        ∧ reportText failures
            = reportHeader failures.length
              ++ (failures.enum.map (fun p => reportEntry p.1 p.2.1 p.2.2)).flatten
        ∧ (∀ j fname msg, failures[j]? = some (fname, msg) →
            (failures.enum.map (fun p => reportEntry p.1 p.2.1 p.2.2))[j]?
              = some (reportEntry j fname msg))) := by
  have hcount := processFiles_count c i o fs (webpFilesOf entries)
  refine ⟨?_, by omega, ?_, ?_, ?_, ?_⟩
  · simp [convertDirectory, hrd, hne, hmk]
  · intro hK hcr
    simp [convertDirectory, hrd, hne, hmk, writeReport, hK, hcr]
  · intro hK hcr
    simp [convertDirectory, hrd, hne, hmk, writeReport, hK, hcr]
  · intro hK
    simp [convertDirectory, hrd, hne, hmk, writeReport, hK]
  · intro failures
    refine ⟨by simp, rfl, ?_⟩
    intro j fname msg hj
    simp [List.enum, hj]

/-- Witness for C6: the full fixture batch — five eligible files, two
successes and three failures (one decode failure, one empty output, one
encode failure) — produces the report at `d/conversion_errors.txt` and a
success count of 5 − 3. -/
theorem spec_C6_witness :
    ((convertDirectory demoCodec demoFS (lit "d") []).1 = Except.ok
        ⟨(processFiles demoCodec (lit "d") [] demoFS
            (webpFilesOf (demoFS.dirs.head!.2))).failures,
          (processFiles demoCodec (lit "d") [] demoFS
            (webpFilesOf (demoFS.dirs.head!.2))).successCount,
          (webpFilesOf (demoFS.dirs.head!.2)).length⟩)
    ∧ ((processFiles demoCodec (lit "d") [] demoFS
          (webpFilesOf (demoFS.dirs.head!.2))).successCount
        = (webpFilesOf (demoFS.dirs.head!.2)).length
          - (processFiles demoCodec (lit "d") [] demoFS
              (webpFilesOf (demoFS.dirs.head!.2))).failures.length) :=
  ⟨((spec_C6 demoCodec demoFS (lit "d") [] (demoFS.dirs.head!.2)
      rfl (by decide) (by decide)).1),
    ((spec_C6 demoCodec demoFS (lit "d") [] (demoFS.dirs.head!.2)
      rfl (by decide) (by decide)).2.1)⟩

/-- The spec's eligibility predicate: a non-directory entry whose name
ends in the case-insensitive extension `.webp` (some suffix of the name
lower-cases to `.webp`). -/
def specEligible (e : DirEnt) : Prop :=
  e.isDir = false ∧ ∃ s ∈ e.name.tails, goToLower s = lit ".webp"

/-- The code's per-entry test agrees with the spec's predicate. -/
theorem codeEligible_iff (e : DirEnt) :
    (!e.isDir && goHasSuffix (goToLower e.name) (lit ".webp")) = true ↔
      specEligible e := by
  rw [Bool.and_eq_true, Bool.not_eq_eq_eq_not, Bool.not_true, specEligible]
  refine and_congr Iff.rfl ?_
  rw [goHasSuffix, List.isSuffixOf_iff_suffix, goToLower]
  constructor
  · rintro ⟨t, ht⟩
    obtain ⟨l₁, l₂, hname, -, h₂⟩ := List.map_eq_append_iff.mp ht.symm
    exact ⟨l₂, (List.mem_tails _ _).mpr ⟨l₁, hname.symm⟩, h₂⟩
  · rintro ⟨s, hs, hmap⟩
    obtain ⟨t, hts⟩ := (List.mem_tails _ _).mp hs
    refine ⟨t.map Char.toLower, ?_⟩
    rw [← hts, List.map_append]
    rw [goToLower] at hmap
    rw [hmap]

instance (e : DirEnt) : Decidable (specEligible e) := by
  unfold specEligible
  infer_instance

/-- C7: the files selected for batch conversion are exactly the
non-directory entries whose name ends in the case-insensitive extension
`.webp`; all other entries (including subdirectories, which are never
entered) are ignored. -/
theorem spec_C7 (entries : List DirEnt) :
    webpFilesOf entries
      = (entries.filter (fun e => decide (specEligible e))).map DirEnt.name := by
  unfold webpFilesOf
  congr 1
  apply List.filter_congr
  intro e _
  rw [Bool.eq_iff_iff, decide_eq_true_iff]
  exact codeEligible_iff e

/-- The extension is always a suffix of the path (or empty). -/
theorem extLoop_suffix (rev acc : Str) :
    extLoop rev acc = [] ∨ extLoop rev acc <:+ (rev.reverse ++ acc) := by
  induction rev generalizing acc with
  | nil => exact Or.inl rfl
  | cons c rest ih =>
    by_cases hc : c = '/'
    · exact Or.inl (by simp [extLoop, hc])
    · by_cases hd : c = '.'
      · refine Or.inr ?_
        rw [extLoop, if_neg hc, if_pos hd]
        exact ⟨rest.reverse, by simp⟩
      · rcases ih (c :: acc) with h | h
        · exact Or.inl (by rw [extLoop, if_neg hc, if_neg hd]; exact h)
        · refine Or.inr ?_
          rw [extLoop, if_neg hc, if_neg hd]
          simpa [List.append_assoc] using h

/-- `filepath.Ext` returns a suffix of the path (or the empty string). -/
theorem filepathExt_suffix (p : Str) :
    filepathExt p = [] ∨ filepathExt p <:+ p := by
  have h := extLoop_suffix p.reverse []
  simpa [filepathExt] using h

/-- Trimming the extension and appending it back restores the path: the
"base name" and the extension decompose the file name. -/
theorem trim_ext_append (p : Str) :
    goTrimSuffix p (filepathExt p) ++ filepathExt p = p := by
  rcases filepathExt_suffix p with h | h
  · rw [h]
    simp [goTrimSuffix, goHasSuffix]
  · obtain ⟨t, ht⟩ := h
    have hs : goHasSuffix p (filepathExt p) = true := by
      rw [goHasSuffix, List.isSuffixOf_iff_suffix]
      exact ⟨t, ht⟩
    rw [goTrimSuffix, if_pos hs]
    have h1 : t.length + (filepathExt p).length = p.length := by
      simpa using congrArg List.length ht
    have hlen : p.length - (filepathExt p).length = t.length := by omega
    have h2 : List.take t.length p = t := by
      conv_lhs => rw [← ht]
      exact List.take_left t (filepathExt p)
    rw [hlen, h2]
    exact ht

/-- C8: the destination path is the base name with its extension
replaced by `.png` (base name ++ extension reassemble the original
name), placed in `outputDir`, or in `inputDir` when `outputDir` is
empty; the single-file CLI path derives the omitted output by the same
extension replacement. -/
theorem spec_C8 (inputDir outputDir f : Str) :
    (goTrimSuffix f (filepathExt f) ++ filepathExt f = f)
    ∧ pngNameOf f = goTrimSuffix f (filepathExt f) ++ lit ".png"
    ∧ (outputDir ≠ [] → outputPathOf inputDir outputDir f
        = filepathJoin outputDir (pngNameOf f))
    ∧ (outputDir = [] → outputPathOf inputDir outputDir f
        = filepathJoin inputDir (pngNameOf f))
    ∧ deriveSingleOutput f = pngNameOf f := by
  refine ⟨trim_ext_append f, rfl, ?_, ?_, rfl⟩
  · intro h
    rw [outputPathOf, if_pos h]
  · intro h
    rw [outputPathOf, if_neg (by simp [h])]

/-- Witness for C8 at a concrete name: `photo.webp` decomposes into base
name and extension, and with an empty output directory the destination
lands beside the input. -/
theorem spec_C8_witness :
    (goTrimSuffix (lit "photo.webp") (filepathExt (lit "photo.webp"))
        ++ filepathExt (lit "photo.webp") = lit "photo.webp")
    ∧ outputPathOf (lit "d") [] (lit "photo.webp")
        = filepathJoin (lit "d") (pngNameOf (lit "photo.webp")) :=
  ⟨(spec_C8 (lit "d") [] (lit "photo.webp")).1,
    (spec_C8 (lit "d") [] (lit "photo.webp")).2.2.2.1 rfl⟩

/-- C9: running `convert` twice with the same valid input path and the
same output path is idempotent.  The first run succeeds and leaves the
destination holding the encoded bytes; the second run decodes the same
input to the same image, overwrites the destination with the same bytes,
and returns the very same filesystem — no accumulation or corruption. -/
theorem spec_C9 {Img : Type} (c : Codec Img) (fs : FS) (i o data : Str)
    (img : Img) (hio : i ≠ o) (hread : fs.read i = some data)
    (hdec : decodeFallback c data = Except.ok img)
    (hcr : o ∉ fs.createFails) (henc : (c.pngEncode img).2 = none)
    (hsy : o ∉ fs.syncFails) :
    convertWebPToPNG c fs i o
        = (Except.ok (), fs.write o (c.pngEncode img).1)
    ∧ convertWebPToPNG c (fs.write o (c.pngEncode img).1) i o
        = (Except.ok (), fs.write o (c.pngEncode img).1)
    ∧ (fs.write o (c.pngEncode img).1).read o = some (c.pngEncode img).1 := by
  have hread2 : (fs.write o (c.pngEncode img).1).read i = some data := by
    rw [FS.read_write_other fs hio]
    exact hread
  refine ⟨?_, ?_, FS.read_write_self fs o (c.pngEncode img).1⟩
  · simp [convertWebPToPNG, hread, hdec, hcr, henc, hsy, FS.write_write_self]
  · simp [convertWebPToPNG, hread2, hdec, hcr, henc, hsy, FS.write_write_self]

/-- Witness for C9: converting the valid fixture file `d/a.webp` twice
to `d/a.png` yields the same filesystem both times. -/
theorem spec_C9_witness :
    convertWebPToPNG demoCodec demoFS (lit "d/a.webp") (lit "d/a.png")
        = (Except.ok (), demoFS.write (lit "d/a.png")
            (demoCodec.pngEncode 1).1)
    ∧ convertWebPToPNG demoCodec
          (demoFS.write (lit "d/a.png") (demoCodec.pngEncode 1).1)
          (lit "d/a.webp") (lit "d/a.png")
        = (Except.ok (), demoFS.write (lit "d/a.png")
            (demoCodec.pngEncode 1).1)
    ∧ (demoFS.write (lit "d/a.png") (demoCodec.pngEncode 1).1).read
          (lit "d/a.png") = some (demoCodec.pngEncode 1).1 :=
  spec_C9 demoCodec demoFS (lit "d/a.webp") (lit "d/a.png")
    (lit "RIFFWEBP") 1 (by decide) rfl rfl (by decide) rfl (by decide)

/-- C10: when the PNG encode succeeds but the flush-to-disk fails,
`convert` returns a sync error while the fully encoded destination file
stays on disk (non-empty whenever the encoder wrote bytes); this is the
only error path of `convert` that leaves a destination file behind
(starting from no pre-existing destination); and in batch mode such an
error is recorded as one more failure outcome with no success counted.
-/
theorem spec_C10 {Img : Type} (c : Codec Img) (fs : FS) (i o : Str) :
    (∀ data img, fs.read i = some data →
      decodeFallback c data = Except.ok img →
      o ∉ fs.createFails → (c.pngEncode img).2 = none → o ∈ fs.syncFails →
      (convertWebPToPNG c fs i o).1
          = Except.error (GoErr.wrap syncFailPrefix osSyncErr)
      ∧ ((convertWebPToPNG c fs i o).2).read o = some (c.pngEncode img).1
      ∧ ((c.pngEncode img).1 ≠ [] →
          ∃ d, ((convertWebPToPNG c fs i o).2).read o = some d
            ∧ d.length ≠ 0))
    ∧ (fs.read o = none → ∀ e,
        (convertWebPToPNG c fs i o).1 = Except.error e →
        ((convertWebPToPNG c fs i o).2).read o ≠ none →
        e = GoErr.wrap syncFailPrefix osSyncErr)
    ∧ (∀ acc f e fs1,
        convertWebPToPNG c acc.fs (filepathJoin i f) (outputPathOf i o f)
          = (Except.error e, fs1) →
        (processOne c i o acc f).failures
            = acc.failures ++ [(f, convFailMsg f e)]
        ∧ (processOne c i o acc f).successCount = acc.successCount) := by
  refine ⟨?_, ?_, ?_⟩
  · intro data img hread hdec hcr henc hsy
    refine ⟨by simp [convertWebPToPNG, hread, hdec, hcr, henc, hsy], ?_, ?_⟩
    · simp [convertWebPToPNG, hread, hdec, hcr, henc, hsy]
    · intro hnb
      refine ⟨(c.pngEncode img).1, ?_, by simpa using hnb⟩
      simp [convertWebPToPNG, hread, hdec, hcr, henc, hsy]
  · intro ho e herr hleft
    cases hread : fs.read i with
    | none =>
      rw [show (convertWebPToPNG c fs i o).2 = fs by
        simp [convertWebPToPNG, hread], ho] at hleft
      exact absurd rfl hleft
    | some data =>
      cases hdec : decodeFallback c data with
      | error e2 =>
        rw [show (convertWebPToPNG c fs i o).2 = fs by
          simp [convertWebPToPNG, hread, hdec], ho] at hleft
        exact absurd rfl hleft
      | ok img =>
        by_cases hcr : o ∈ fs.createFails
        · rw [show (convertWebPToPNG c fs i o).2 = fs by
            simp [convertWebPToPNG, hread, hdec, hcr], ho] at hleft
          exact absurd rfl hleft
        · cases henc : (c.pngEncode img).2 with
          | some e2 =>
            rw [show ((convertWebPToPNG c fs i o).2).read o = none by
              simp [convertWebPToPNG, hread, hdec, hcr, henc]] at hleft
            exact absurd rfl hleft
          | none =>
            by_cases hsy : o ∈ fs.syncFails
            · have : (convertWebPToPNG c fs i o).1
                  = Except.error (GoErr.wrap syncFailPrefix osSyncErr) := by
                simp [convertWebPToPNG, hread, hdec, hcr, henc, hsy]
              rw [this] at herr
              exact (Except.error.inj herr).symm
            · have : (convertWebPToPNG c fs i o).1 = Except.ok () := by
                simp [convertWebPToPNG, hread, hdec, hcr, henc, hsy]
              rw [this] at herr
              cases herr
  · intro acc f e fs1 hconv
    constructor
    · simp [processOne, hconv]
    · simp [processOne, hconv]

/-- Witness for C10: with fault injection making `Sync` fail at
`d/a.png`, converting the valid file `d/a.webp` fails with a sync error
yet leaves the fully encoded, non-empty `d/a.png` on disk. -/
theorem spec_C10_witness :
    (convertWebPToPNG demoCodec
        { demoFS with syncFails := [lit "d/a.png"] }
        (lit "d/a.webp") (lit "d/a.png")).1
      = Except.error (GoErr.wrap syncFailPrefix osSyncErr)
    ∧ ((convertWebPToPNG demoCodec
        { demoFS with syncFails := [lit "d/a.png"] }
        (lit "d/a.webp") (lit "d/a.png")).2).read (lit "d/a.png")
      = some (demoCodec.pngEncode 1).1 :=
  ⟨((spec_C10 demoCodec { demoFS with syncFails := [lit "d/a.png"] }
      (lit "d/a.webp") (lit "d/a.png")).1 (lit "RIFFWEBP") 1
      rfl rfl (by decide) rfl (by decide)).1,
    ((spec_C10 demoCodec { demoFS with syncFails := [lit "d/a.png"] }
      (lit "d/a.webp") (lit "d/a.png")).1 (lit "RIFFWEBP") 1
      rfl rfl (by decide) rfl (by decide)).2.1⟩
